import Mathlib

/-!
Verification development for the kidChef recipe-extraction pipeline
(src/functions/src/index.ts and its compiled twin src/functions/lib/index.js).

The extraction functions are modelled as pure Lean functions over:
  * `JVal`   — JavaScript-like values as produced by JSON.parse (plus `jundefined`
               for missing properties);
  * `Block`  — one linked-data script block, abstracting JSON.parse as a
               primitive that either fails or yields a `JVal`;
  * `Doc`    — a fetched-and-parsed document, abstracting the cheerio query
               interface: the list of JSON-LD blocks, the optional microdata
               recipe element, and a selector-to-element-texts query function.

Member access on null/undefined throws a TypeError in JavaScript; it is
modelled by `Except Unit` where the source can reach it (findRecipeInJsonLd).
Where the source guards access by truthiness, the total accessor `JVal.get`
is used. Text-valued results are modelled as strings; a truthy non-string
text/@value payload is rendered through `JVal.toStr`.
-/

/-- JavaScript-like values as produced by JSON.parse, plus `jundefined` for
missing-property reads. -/
inductive JVal where
  | jundefined
  | jnull
  | jbool (b : Bool)
  | jnum (n : Int)
  | jstr (s : String)
  | jarr (items : List JVal)
  | jobj (fields : List (String × JVal))

/-- JavaScript strict equality `v === s` against a string literal. -/
def JVal.isStr (v : JVal) (s : String) : Bool :=
  match v with
  | .jstr t => t == s
  | _ => false

/-- JavaScript truthiness of a value. -/
def JVal.truthy : JVal → Bool
  | .jundefined => false
  | .jnull => false
  | .jbool b => b
  | .jnum n => n != 0
  | .jstr s => s != ""
  | .jarr _ => true
  | .jobj _ => true

/-- First binding of a key in a field list (JSON.parse yields distinct keys). -/
def lookupField : List (String × JVal) → String → Option JVal
  | [], _ => none
  | (k, v) :: rest, key => if k = key then some v else lookupField rest key

/-- Property access `v[key]` where the source has already ruled out
null/undefined receivers (non-objects yield `undefined`). -/
def JVal.get : JVal → String → JVal
  | .jobj fields, key => (lookupField fields key).getD .jundefined
  | _, _ => .jundefined

/-- Rendering of a value in a string position. -/
def JVal.toStr : JVal → String
  | .jstr s => s
  | .jnum n => toString n
  | .jbool b => if b then "true" else "false"
  | _ => ""

/-- The JavaScript `a || b` operator on values. -/
def jsOr (a b : JVal) : JVal := if a.truthy then a else b

/-- The JavaScript optional chaining `v?.[key]`. -/
def optChain (v : JVal) (key : String) : JVal :=
  match v with
  | .jundefined => .jundefined
  | .jnull => .jundefined
  | w => w.get key

/-- Whitespace class used by String.prototype.trim and by the regex \s. -/
def isJsSpace (c : Char) : Bool := c.isWhitespace

/-- Model of JavaScript String.prototype.trim. -/
def jsTrim (s : String) : String :=
  String.mk (((s.toList.dropWhile isJsSpace).reverse.dropWhile isJsSpace).reverse)

/-- Numeric value of a list of decimal digit characters. -/
def digitsToNat (ds : List Char) : Nat :=
  ds.foldl (fun acc c => acc * 10 + (c.toNat - 48)) 0

/-- Split off the longest prefix of decimal digits. -/
def splitDigits : List Char → List Char × List Char
  | [] => ([], [])
  | c :: cs =>
    if c.isDigit then
      let (ds, rest) := splitDigits cs
      (c :: ds, rest)
    else ([], c :: cs)

/-- Model of JavaScript parseInt on a string (decimal): skip leading
whitespace, optional sign, then the longest digit prefix; NaN (no digits)
is `none`. -/
def jsParseInt (s : String) : Option Int :=
  let cs := s.toList.dropWhile isJsSpace
  match cs with
  | '-' :: rest =>
    match splitDigits rest with
    | ([], _) => none
    | (ds, _) => some (-(digitsToNat ds : Int))
  | '+' :: rest =>
    match splitDigits rest with
    | ([], _) => none
    | (ds, _) => some ((digitsToNat ds : Int))
  | _ =>
    match splitDigits cs with
    | ([], _) => none
    | (ds, _) => some ((digitsToNat ds : Int))

/-- The `Partial<ScrapedRecipe>` shape returned by the three extractors:
`none` models a JavaScript-undefined field. -/
structure PartialRecipe where
  title : Option String
  description : Option String
  image : Option String
  prepTime : Option String
  cookTime : Option String
  totalTime : Option String
  servings : Option Int
  difficulty : Option String
  ingredients : Option (List String)
  instructions : Option (List String)
  tags : Option (List String)
  deriving DecidableEq, Repr

/-- The ScrapedRecipe output schema of src/functions/src/index.ts. -/
structure ScrapedRecipe where
  title : String
  description : Option String
  image : Option String
  prepTime : Option String
  cookTime : Option String
  totalTime : Option String
  servings : Option Int
  difficulty : Option String
  ingredients : List String
  instructions : List String
  sourceUrl : String
  tags : Option (List String)
  deriving DecidableEq, Repr

/-- The inner extractText helper of parseJsonLdRecipe: a plain string is
returned as is; else a truthy object's truthy `text` property, else its
truthy `@value` property, else the empty string. -/
def extractText (value : JVal) : String :=
  match value with
  | .jstr s => s
  | v =>
    if v.truthy then
      if (v.get "text").truthy then (v.get "text").toStr
      else if (v.get "@value").truthy then (v.get "@value").toStr
      else ""
    else ""

/-- The inner extractArray helper of parseJsonLdRecipe: normalize a scalar
or list to a list of extracted texts, dropping falsy entries. -/
def extractArray (value : JVal) : List String :=
  if !value.truthy then []
  else
    match value with
    | .jarr items => (items.map extractText).filter (fun t => t != "")
    | v => [extractText v].filter (fun t => t != "")

/-- Characters after the first occurrence of the literal "PT", if any:
the position where the regex PT(?:(\d+)H)?(?:(\d+)M)? first matches. -/
def findPT : List Char → Option (List Char)
  | [] => none
  | 'P' :: 'T' :: rest => some rest
  | _ :: rest => findPT rest

/-- One optional regex group (?:(\d+)X)? at the current position: the
captured number and the remaining characters, or no capture. -/
def matchGroup (marker : Char) (cs : List Char) : Option Nat × List Char :=
  match splitDigits cs with
  | ([], _) => (none, cs)
  | (ds, rest) =>
    match rest with
    | [] => (none, cs)
    | c :: rest2 => if c = marker then (some (digitsToNat ds), rest2) else (none, cs)

/-- The inner extractTime helper of parseJsonLdRecipe: falsy input gives "",
a string is matched against PT(?:(\d+)H)?(?:(\d+)M)? and rendered as a
compact human duration when a nonzero component was captured; otherwise the
value falls through to extractText. -/
def extractTime (duration : JVal) : String :=
  if !duration.truthy then ""
  else
    match duration with
    | .jstr s =>
      match findPT s.toList with
      | some rest =>
        let (hOpt, rest2) := matchGroup 'H' rest
        let (mOpt, _) := matchGroup 'M' rest2
        let hours := hOpt.getD 0
        let minutes := mOpt.getD 0
        if hours != 0 && minutes != 0 then toString hours ++ "h " ++ toString minutes ++ "min"
        else if hours != 0 then toString hours ++ "h"
        else if minutes != 0 then toString minutes ++ "min"
        else extractText duration
      | none => extractText duration
    | _ => extractText duration

/-- The inner extractNumber helper of parseJsonLdRecipe: a native number is
returned as is, a string goes through parseInt (NaN becoming absent), and
anything else is absent. -/
def extractNumber : JVal → Option Int
  | .jnum n => some n
  | .jstr s => jsParseInt s
  | _ => none

/-- The regex replace of ^\d+\.\s* by the empty string, applied to each
instruction entry in parseJsonLdRecipe. -/
def stripLeadingOrdinal (s : String) : String :=
  match splitDigits s.toList with
  | ([], _) => s
  | (_, rest) =>
    match rest with
    | '.' :: rest2 => String.mk (rest2.dropWhile isJsSpace)
    | _ => s

/-- The instruction-cleanup lambda inside parseJsonLdRecipe: strip a leading
ordinal, then trim. -/
def cleanInstruction (instruction : String) : String :=
  jsTrim (stripLeadingOrdinal instruction)

/-- parseJsonLdRecipe from src/functions/src/index.ts: map a recipe-typed
JSON-LD object to the partial output schema. -/
def parseJsonLdRecipe (recipe : JVal) : PartialRecipe :=
  { title := some (extractText (recipe.get "name")),
    description := some (extractText (recipe.get "description")),
    image := some (extractText (jsOr (optChain (recipe.get "image") "url") (recipe.get "image"))),
    prepTime := some (extractTime (recipe.get "prepTime")),
    cookTime := some (extractTime (recipe.get "cookTime")),
    totalTime := some (extractTime (recipe.get "totalTime")),
    servings := extractNumber (jsOr (recipe.get "recipeYield") (recipe.get "yield")),
    difficulty := none,
    ingredients := some (extractArray (recipe.get "recipeIngredient")),
    instructions := some (if (recipe.get "recipeInstructions").truthy then
        (extractArray (recipe.get "recipeInstructions")).map cleanInstruction
      else []),
    tags := some (extractArray (recipe.get "recipeCategory") ++
      extractArray (recipe.get "recipeCuisine")) }

theorem lookupField_sizeOf (fields : List (String × JVal)) (key : String) (v : JVal)
    (h : lookupField fields key = some v) : sizeOf v < sizeOf fields := by
  induction fields with
  | nil => simp [lookupField] at h
  | cons p rest ih =>
    obtain ⟨k, w⟩ := p
    by_cases hk : k = key
    · simp only [lookupField, if_pos hk, Option.some.injEq] at h
      subst h
      simp
      omega
    · simp only [lookupField, if_neg hk] at h
      have hlt := ih h
      simp
      omega

mutual
/-- findRecipeInJsonLd from src/functions/src/index.ts. Member access on a
null (or undefined) value raises a TypeError, modelled as `Except.error`;
the caller extractFromJsonLd catches it and skips the block. -/
def findRecipeInJsonLd : JVal → Except Unit (Option PartialRecipe)
  | .jundefined => .error ()
  | .jnull => .error ()
  | .jarr items => findRecipeInList items
  | .jobj fields =>
    if (JVal.get (.jobj fields) "@type").isStr "Recipe" then
      .ok (some (parseJsonLdRecipe (.jobj fields)))
    else
      match h : lookupField fields "@graph" with
      | some g => if g.truthy then findRecipeInJsonLd g else .ok none
      | none => .ok none
  | _ => .ok none
termination_by v => sizeOf v
decreasing_by
  all_goals simp_wf
  all_goals first
    | omega
    | (have hsz := lookupField_sizeOf fields _ _ h; omega)

/-- The for-of loop of findRecipeInJsonLd over an array: first match wins,
an element's TypeError propagates. -/
def findRecipeInList : List JVal → Except Unit (Option PartialRecipe)
  | [] => .ok none
  | item :: rest =>
    match findRecipeInJsonLd item with
    | .error e => .error e
    | .ok (some r) => .ok (some r)
    | .ok none => findRecipeInList rest
termination_by items => sizeOf items
end

/-- One script[type="application/ld+json"] block of a document: content
absent/empty, content that JSON.parse rejects, or the parsed value. -/
inductive Block where
  | noContent
  | malformed
  | parsed (v : JVal)

/-- extractFromJsonLd from src/functions/src/index.ts: scan the blocks in
document order, skipping empty content, parse failures and TypeErrors, and
return the first recipe found. -/
def extractFromJsonLd : List Block → Option PartialRecipe
  | [] => none
  | .noContent :: rest => extractFromJsonLd rest
  | .malformed :: rest => extractFromJsonLd rest
  | .parsed v :: rest =>
    match findRecipeInJsonLd v with
    | .error _ => extractFromJsonLd rest
    | .ok (some r) => some r
    | .ok none => extractFromJsonLd rest

/-- One element matched by a microdata itemprop query: its joined text and
its optional content attribute. -/
structure MicroElem where
  text : String
  content : Option String
  deriving DecidableEq, Repr

/-- The first element whose itemtype contains schema.org/Recipe, abstracted
as the per-itemprop lists of matching descendant elements (in document
order) and the src attribute of the first itemprop="image" descendant. -/
structure MicroRecipe where
  props : String → List MicroElem
  imageSrc : Option String

/-- A fetched-and-parsed document, as queried by the three extractors. -/
structure Doc where
  jsonLdBlocks : List Block
  micro : Option MicroRecipe
  selText : String → List String

/-- The each-loop body of extractProp: an element's trimmed text, falling
back to its content attribute, falling back to the empty string. -/
def elemValue (el : MicroElem) : String :=
  if jsTrim el.text != "" then jsTrim el.text else el.content.getD ""

/-- The inner extractProp helper of extractFromMicrodata: the non-empty
values of all matching descendants, in document order. -/
def extractProp (r : MicroRecipe) (prop : String) : List String :=
  ((r.props prop).map elemValue).filter (fun t => t != "")

/-- extractFromMicrodata from src/functions/src/index.ts. -/
def extractFromMicrodata (d : Doc) : Option PartialRecipe :=
  match d.micro with
  | none => none
  | some r =>
    match (extractProp r "name").head? with
    | none => none
    | some title =>
      if title = "" then none
      else some {
        title := some title,
        description := (extractProp r "description").head?,
        image := r.imageSrc,
        prepTime := (extractProp r "prepTime").head?,
        cookTime := (extractProp r "cookTime").head?,
        totalTime := (extractProp r "totalTime").head?,
        servings := match (extractProp r "recipeYield").head? with
          | none => none
          | some s =>
            match jsParseInt s with
            | none => none
            | some n => if n = 0 then none else some n,
        difficulty := none,
        ingredients := some (extractProp r "recipeIngredient"),
        instructions := some (extractProp r "recipeInstructions"),
        tags := none }

/-- The ordered title selector candidates of extractFromCommonSelectors. -/
def titleSelectors : List String :=
  [".recipe-title", ".entry-title", "h1.recipe-name", ".recipe-header h1",
   "[class*=\"recipe-title\"]", "[class*=\"recipe-name\"]"]

/-- The ordered ingredient selector candidates of extractFromCommonSelectors. -/
def ingredientSelectors : List String :=
  [".recipe-ingredient", ".ingredient", ".recipe-ingredients li",
   "[class*=\"ingredient\"]", ".ingredients li"]

/-- The ordered instruction selector candidates of extractFromCommonSelectors. -/
def instructionSelectors : List String :=
  [".recipe-instruction", ".instruction", ".recipe-instructions li",
   ".recipe-method li", "[class*=\"instruction\"]", ".directions li"]

/-- findTextBySelectors from src/functions/src/index.ts: the first
selector whose first matched element has non-empty trimmed text wins. -/
def findTextBySelectors (sel : String → List String) : List String → String
  | [] => ""
  | s :: rest =>
    match (sel s).head? with
    | none => findTextBySelectors sel rest
    | some t0 =>
      let text := jsTrim t0
      if text != "" then text else findTextBySelectors sel rest

/-- findMultipleTextBySelectors from src/functions/src/index.ts: the first
selector yielding at least one non-empty trimmed text wins and contributes
all of its non-empty matches. -/
def findMultipleTextBySelectors (sel : String → List String) : List String → List String
  | [] => []
  | s :: rest =>
    let elems := sel s
    if elems.isEmpty then findMultipleTextBySelectors sel rest
    else
      let texts := (elems.map jsTrim).filter (fun t => t != "")
      if texts.isEmpty then findMultipleTextBySelectors sel rest
      else texts

/-- extractFromCommonSelectors from src/functions/src/index.ts. -/
def extractFromCommonSelectors (d : Doc) : Option PartialRecipe :=
  let title := findTextBySelectors d.selText titleSelectors
  if title = "" then none
  else
    let ingredients := findMultipleTextBySelectors d.selText ingredientSelectors
    let instructions := findMultipleTextBySelectors d.selText instructionSelectors
    if ingredients.isEmpty && instructions.isEmpty then none
    else some {
      title := some (jsTrim title),
      description := none, image := none, prepTime := none, cookTime := none,
      totalTime := none, servings := none, difficulty := none,
      ingredients := some ingredients,
      instructions := some instructions,
      tags := none }

/-- The orchestrator's usability guard on a strategy result:
the JavaScript condition (result && result.title). -/
def usable : Option PartialRecipe → Option (PartialRecipe × String)
  | none => none
  | some p =>
    match p.title with
    | none => none
    | some t => if t = "" then none else some (p, t)

/-- The orchestrator's return shaping: copy the fields of the winning
strategy result, defaulting absent ingredient/instruction lists to []. -/
def buildResult (p : PartialRecipe) (t url : String) : ScrapedRecipe :=
  { title := t,
    description := p.description,
    image := p.image,
    prepTime := p.prepTime,
    cookTime := p.cookTime,
    totalTime := p.totalTime,
    servings := p.servings,
    difficulty := p.difficulty,
    ingredients := p.ingredients.getD [],
    instructions := p.instructions.getD [],
    sourceUrl := url,
    tags := p.tags }

/-- extractRecipeFromUrl from src/functions/src/index.ts, after the fetch
and cheerio.load steps: try JSON-LD, then microdata, then common CSS
selectors; a result without a truthy title falls through; if all fail,
throw the no-recipe error. -/
def extractRecipeFromUrl (d : Doc) (url : String) : Except String ScrapedRecipe :=
  match usable (extractFromJsonLd d.jsonLdBlocks) with
  | some (p, t) => .ok (buildResult p t url)
  | none =>
    match usable (extractFromMicrodata d) with
    | some (p, t) => .ok (buildResult p t url)
    | none =>
      match usable (extractFromCommonSelectors d) with
      | some (p, t) => .ok (buildResult p t url)
      | none => .error "No recipe data found on this page"

namespace Lib

/-- The extractText helper of src/functions/lib/index.js. -/
def extractText (value : JVal) : String :=
  match value with
  | .jstr s => s
  | v =>
    if v.truthy then
      if (v.get "text").truthy then (v.get "text").toStr
      else if (v.get "@value").truthy then (v.get "@value").toStr
      else ""
    else ""

/-- The extractArray helper of src/functions/lib/index.js. -/
def extractArray (value : JVal) : List String :=
  if !value.truthy then []
  else
    match value with
    | .jarr items => (items.map extractText).filter (fun t => t != "")
    | v => [extractText v].filter (fun t => t != "")

/-- The extractTime helper of src/functions/lib/index.js. -/
def extractTime (duration : JVal) : String :=
  if !duration.truthy then ""
  else
    match duration with
    | .jstr s =>
      match findPT s.toList with
      | some rest =>
        let (hOpt, rest2) := matchGroup 'H' rest
        let (mOpt, _) := matchGroup 'M' rest2
        let hours := hOpt.getD 0
        let minutes := mOpt.getD 0
        if hours != 0 && minutes != 0 then toString hours ++ "h " ++ toString minutes ++ "min"
        else if hours != 0 then toString hours ++ "h"
        else if minutes != 0 then toString minutes ++ "min"
        else extractText duration
      | none => extractText duration
    | _ => extractText duration

/-- The extractNumber helper of src/functions/lib/index.js. -/
def extractNumber : JVal → Option Int
  | .jnum n => some n
  | .jstr s => jsParseInt s
  | _ => none

/-- The instruction-cleanup lambda of src/functions/lib/index.js. -/
def cleanInstruction (instruction : String) : String :=
  jsTrim (stripLeadingOrdinal instruction)

/-- parseJsonLdRecipe from src/functions/lib/index.js, with the transpiled
`(_a = recipe.image) === null || _a === void 0 ? void 0 : _a.url` conditional
written out in place of optional chaining. -/
def parseJsonLdRecipe (recipe : JVal) : PartialRecipe :=
  { title := some (extractText (recipe.get "name")),
    description := some (extractText (recipe.get "description")),
    image := some (extractText (jsOr
      (match recipe.get "image" with
       | .jnull => .jundefined
       | .jundefined => .jundefined
       | w => w.get "url")
      (recipe.get "image"))),
    prepTime := some (extractTime (recipe.get "prepTime")),
    cookTime := some (extractTime (recipe.get "cookTime")),
    totalTime := some (extractTime (recipe.get "totalTime")),
    servings := extractNumber (jsOr (recipe.get "recipeYield") (recipe.get "yield")),
    difficulty := none,
    ingredients := some (extractArray (recipe.get "recipeIngredient")),
    instructions := some (if (recipe.get "recipeInstructions").truthy then
        (extractArray (recipe.get "recipeInstructions")).map cleanInstruction
      else []),
    tags := some (extractArray (recipe.get "recipeCategory") ++
      extractArray (recipe.get "recipeCuisine")) }

mutual
/-- findRecipeInJsonLd from src/functions/lib/index.js. -/
def findRecipeInJsonLd : JVal → Except Unit (Option PartialRecipe)
  | .jundefined => .error ()
  | .jnull => .error ()
  | .jarr items => findRecipeInList items
  | .jobj fields =>
    if (JVal.get (.jobj fields) "@type").isStr "Recipe" then
      .ok (some (parseJsonLdRecipe (.jobj fields)))
    else
      match h : lookupField fields "@graph" with
      | some g => if g.truthy then findRecipeInJsonLd g else .ok none
      | none => .ok none
  | _ => .ok none
termination_by v => sizeOf v
decreasing_by
  all_goals simp_wf
  all_goals first
    | omega
    | (have hsz := lookupField_sizeOf fields _ _ h; omega)

/-- The for-of loop of findRecipeInJsonLd in src/functions/lib/index.js. -/
def findRecipeInList : List JVal → Except Unit (Option PartialRecipe)
  | [] => .ok none
  | item :: rest =>
    match findRecipeInJsonLd item with
    | .error e => .error e
    | .ok (some r) => .ok (some r)
    | .ok none => findRecipeInList rest
termination_by items => sizeOf items
end

/-- extractFromJsonLd from src/functions/lib/index.js. -/
def extractFromJsonLd : List Block → Option PartialRecipe
  | [] => none
  | .noContent :: rest => extractFromJsonLd rest
  | .malformed :: rest => extractFromJsonLd rest
  | .parsed v :: rest =>
    match findRecipeInJsonLd v with
    | .error _ => extractFromJsonLd rest
    | .ok (some r) => some r
    | .ok none => extractFromJsonLd rest

/-- The each-loop body of extractProp in src/functions/lib/index.js. -/
def elemValue (el : MicroElem) : String :=
  if jsTrim el.text != "" then jsTrim el.text else el.content.getD ""

/-- The extractProp helper of src/functions/lib/index.js. -/
def extractProp (r : MicroRecipe) (prop : String) : List String :=
  ((r.props prop).map elemValue).filter (fun t => t != "")

/-- extractFromMicrodata from src/functions/lib/index.js. -/
def extractFromMicrodata (d : Doc) : Option PartialRecipe :=
  match d.micro with
  | none => none
  | some r =>
    match (extractProp r "name").head? with
    | none => none
    | some title =>
      if title = "" then none
      else some {
        title := some title,
        description := (extractProp r "description").head?,
        image := r.imageSrc,
        prepTime := (extractProp r "prepTime").head?,
        cookTime := (extractProp r "cookTime").head?,
        totalTime := (extractProp r "totalTime").head?,
        servings := match (extractProp r "recipeYield").head? with
          | none => none
          | some s =>
            match jsParseInt s with
            | none => none
            | some n => if n = 0 then none else some n,
        difficulty := none,
        ingredients := some (extractProp r "recipeIngredient"),
        instructions := some (extractProp r "recipeInstructions"),
        tags := none }

/-- The title selector list of src/functions/lib/index.js. -/
def titleSelectors : List String :=
  [".recipe-title", ".entry-title", "h1.recipe-name", ".recipe-header h1",
   "[class*=\"recipe-title\"]", "[class*=\"recipe-name\"]"]

/-- The ingredient selector list of src/functions/lib/index.js. -/
def ingredientSelectors : List String :=
  [".recipe-ingredient", ".ingredient", ".recipe-ingredients li",
   "[class*=\"ingredient\"]", ".ingredients li"]

/-- The instruction selector list of src/functions/lib/index.js. -/
def instructionSelectors : List String :=
  [".recipe-instruction", ".instruction", ".recipe-instructions li",
   ".recipe-method li", "[class*=\"instruction\"]", ".directions li"]

/-- findTextBySelectors from src/functions/lib/index.js. -/
def findTextBySelectors (sel : String → List String) : List String → String
  | [] => ""
  | s :: rest =>
    match (sel s).head? with
    | none => findTextBySelectors sel rest
    | some t0 =>
      let text := jsTrim t0
      if text != "" then text else findTextBySelectors sel rest

/-- findMultipleTextBySelectors from src/functions/lib/index.js. -/
def findMultipleTextBySelectors (sel : String → List String) : List String → List String
  | [] => []
  | s :: rest =>
    let elems := sel s
    if elems.isEmpty then findMultipleTextBySelectors sel rest
    else
      let texts := (elems.map jsTrim).filter (fun t => t != "")
      if texts.isEmpty then findMultipleTextBySelectors sel rest
      else texts

/-- extractFromCommonSelectors from src/functions/lib/index.js. -/
def extractFromCommonSelectors (d : Doc) : Option PartialRecipe :=
  let title := findTextBySelectors d.selText titleSelectors
  if title = "" then none
  else
    let ingredients := findMultipleTextBySelectors d.selText ingredientSelectors
    let instructions := findMultipleTextBySelectors d.selText instructionSelectors
    if ingredients.isEmpty && instructions.isEmpty then none
    else some {
      title := some (jsTrim title),
      description := none, image := none, prepTime := none, cookTime := none,
      totalTime := none, servings := none, difficulty := none,
      ingredients := some ingredients,
      instructions := some instructions,
      tags := none }

/-- The orchestrator guard (result && result.title) of src/functions/lib/index.js. -/
def usable : Option PartialRecipe → Option (PartialRecipe × String)
  | none => none
  | some p =>
    match p.title with
    | none => none
    | some t => if t = "" then none else some (p, t)

/-- The orchestrator's return shaping in src/functions/lib/index.js. -/
def buildResult (p : PartialRecipe) (t url : String) : ScrapedRecipe :=
  { title := t,
    description := p.description,
    image := p.image,
    prepTime := p.prepTime,
    cookTime := p.cookTime,
    totalTime := p.totalTime,
    servings := p.servings,
    difficulty := p.difficulty,
    ingredients := p.ingredients.getD [],
    instructions := p.instructions.getD [],
    sourceUrl := url,
    tags := p.tags }

/-- extractRecipeFromUrl from src/functions/lib/index.js, after fetch and
cheerio.load. -/
def extractRecipeFromUrl (d : Doc) (url : String) : Except String ScrapedRecipe :=
  match usable (extractFromJsonLd d.jsonLdBlocks) with
  | some (p, t) => .ok (buildResult p t url)
  | none =>
    match usable (extractFromMicrodata d) with
    | some (p, t) => .ok (buildResult p t url)
    | none =>
      match usable (extractFromCommonSelectors d) with
      | some (p, t) => .ok (buildResult p t url)
      | none => .error "No recipe data found on this page"

end Lib

theorem splitDigits_of_digits (ds rest : List Char)
    (hds : ∀ c ∈ ds, c.isDigit = true)
    (hrest : ∀ c, rest.head? = some c → c.isDigit = false) :
    splitDigits (ds ++ rest) = (ds, rest) := by
  induction ds with
  | nil =>
    simp only [List.nil_append]
    match rest with
    | [] => rfl
    | c :: cs =>
      have hc := hrest c rfl
      simp [splitDigits, hc]
  | cons d ds ih =>
    have hd := hds d (by simp)
    simp only [List.cons_append, splitDigits, hd, if_true, List.append_eq]
    rw [ih (fun c hc => hds c (by simp [hc]))]

theorem string_ne_empty_of_toList_cons (s : String) (c : Char) (cs : List Char)
    (h : s.toList = c :: cs) : s ≠ "" := by
  intro he
  rw [he] at h
  simp at h

theorem findPT_here (rest : List Char) : findPT ('P' :: 'T' :: rest) = some rest := rfl

theorem bne_of_ne {s t : String} (h : s ≠ t) : (s != t) = true := bne_iff_ne.mpr h

theorem digitsToNat_nil : digitsToNat [] = 0 := rfl

/-- Evaluation of extractTime on a string whose first "PT" is followed by a
digit run, an optional H marker, a digit run and an optional M marker. -/
theorem extractTime_hours_only (s : String) (ds : List Char)
    (hshape : s.toList = 'P' :: 'T' :: (ds ++ ['H']))
    (hdig : ∀ c ∈ ds, c.isDigit = true)
    (hnz : digitsToNat ds ≠ 0) :
    extractTime (.jstr s) = toString (digitsToNat ds) ++ "h" := by
  have hne : s ≠ "" := string_ne_empty_of_toList_cons s _ _ hshape
  match ds, hnz with
  | [], hnz => exact absurd digitsToNat_nil hnz
  | d :: ds, hnz =>
    rw [extractTime]
    simp only [JVal.truthy, bne_of_ne hne, Bool.not_true, Bool.false_eq_true, if_false, hshape,
      findPT_here, matchGroup,
      splitDigits_of_digits (d :: ds) ['H'] hdig (by intro c hc; simp at hc; subst hc; decide)]
    simp [splitDigits, hnz]

/-- Evaluation of extractTime when both an hour and a minute group are
captured with nonzero values. -/
theorem extractTime_hours_minutes (s : String) (ds1 ds2 : List Char)
    (hshape : s.toList = 'P' :: 'T' :: (ds1 ++ 'H' :: (ds2 ++ ['M'])))
    (hdig1 : ∀ c ∈ ds1, c.isDigit = true)
    (hdig2 : ∀ c ∈ ds2, c.isDigit = true)
    (hnz1 : digitsToNat ds1 ≠ 0)
    (hnz2 : digitsToNat ds2 ≠ 0) :
    extractTime (.jstr s) =
      toString (digitsToNat ds1) ++ "h " ++ toString (digitsToNat ds2) ++ "min" := by
  have hne : s ≠ "" := string_ne_empty_of_toList_cons s _ _ hshape
  match ds1, hnz1, ds2, hnz2 with
  | [], hnz1, _, _ => exact absurd digitsToNat_nil hnz1
  | _ :: _, _, [], hnz2 => exact absurd digitsToNat_nil hnz2
  | d1 :: ds1, hnz1, d2 :: ds2, hnz2 =>
    have hsplit1 := splitDigits_of_digits (d1 :: ds1) ('H' :: (d2 :: ds2 ++ ['M'])) hdig1
      (by intro c hc; simp at hc; subst hc; decide)
    have hsplit2 := splitDigits_of_digits (d2 :: ds2) ['M'] hdig2
      (by intro c hc; simp at hc; subst hc; decide)
    simp only [List.cons_append] at hsplit1 hsplit2
    rw [extractTime]
    simp only [JVal.truthy, bne_of_ne hne, Bool.not_true, Bool.false_eq_true, if_false, hshape,
      findPT_here]
    simp [matchGroup, hsplit1, hsplit2, hnz1, hnz2, bne_iff_ne]

/-- Evaluation of extractTime when only a minute group is captured with a
nonzero value. -/
theorem extractTime_minutes_only (s : String) (ds : List Char)
    (hshape : s.toList = 'P' :: 'T' :: (ds ++ ['M']))
    (hdig : ∀ c ∈ ds, c.isDigit = true)
    (hnz : digitsToNat ds ≠ 0) :
    extractTime (.jstr s) = toString (digitsToNat ds) ++ "min" := by
  have hne : s ≠ "" := string_ne_empty_of_toList_cons s _ _ hshape
  match ds, hnz with
  | [], hnz => exact absurd digitsToNat_nil hnz
  | d :: ds, hnz =>
    have hsplit := splitDigits_of_digits (d :: ds) ['M'] hdig
      (by intro c hc; simp at hc; subst hc; decide)
    simp only [List.cons_append] at hsplit
    rw [extractTime]
    simp only [JVal.truthy, bne_of_ne hne, Bool.not_true, Bool.false_eq_true, if_false, hshape,
      findPT_here]
    simp [matchGroup, hsplit, hnz, bne_iff_ne]

/-- When the string contains no "PT" at all, extractTime passes it through. -/
theorem extractTime_passthrough (s : String) (h : findPT s.toList = none) :
    extractTime (.jstr s) = s := by
  by_cases hs : s = ""
  · subst hs; rfl
  · rw [extractTime]
    simp only [JVal.truthy, bne_of_ne hs, Bool.not_true, Bool.false_eq_true, if_false, h]
    rfl

/-- C5: The duration normalizer maps an ISO-8601-like duration string to a
compact human string: nonzero captured hours and minutes give "{h}h {m}min",
hours only give "{h}h", minutes only give "{m}min", and an input without a
"PT" occurrence is passed through unchanged; concretely "PT1H15M" yields
"1h 15min", "PT45M" yields "45min", "PT2H" yields "2h", and "bogus" yields
"bogus". -/
theorem extractTime_compact_duration (s : String) (ds1 ds2 : List Char) :
    (s.toList = 'P' :: 'T' :: (ds1 ++ 'H' :: (ds2 ++ ['M'])) →
      (∀ c ∈ ds1, c.isDigit = true) → (∀ c ∈ ds2, c.isDigit = true) →
      digitsToNat ds1 ≠ 0 → digitsToNat ds2 ≠ 0 →
      extractTime (.jstr s) =
        toString (digitsToNat ds1) ++ "h " ++ toString (digitsToNat ds2) ++ "min") ∧
    (s.toList = 'P' :: 'T' :: (ds1 ++ ['H']) →
      (∀ c ∈ ds1, c.isDigit = true) → digitsToNat ds1 ≠ 0 →
      extractTime (.jstr s) = toString (digitsToNat ds1) ++ "h") ∧
    (s.toList = 'P' :: 'T' :: (ds2 ++ ['M']) →
      (∀ c ∈ ds2, c.isDigit = true) → digitsToNat ds2 ≠ 0 →
      extractTime (.jstr s) = toString (digitsToNat ds2) ++ "min") ∧
    (findPT s.toList = none → extractTime (.jstr s) = s) ∧
    extractTime (.jstr "PT1H15M") = "1h 15min" ∧
    extractTime (.jstr "PT45M") = "45min" ∧
    extractTime (.jstr "PT2H") = "2h" ∧
    extractTime (.jstr "bogus") = "bogus" := by
  refine ⟨fun h1 h2 h3 h4 h5 => extractTime_hours_minutes s ds1 ds2 h1 h2 h3 h4 h5,
    fun h1 h2 h3 => extractTime_hours_only s ds1 h1 h2 h3,
    fun h1 h2 h3 => extractTime_minutes_only s ds2 h1 h2 h3,
    fun h => extractTime_passthrough s h, by decide, by decide, by decide, by decide⟩

/-- Witness for C5 at the concrete duration "PT3H7M". -/
theorem extractTime_compact_duration_witness :
    extractTime (.jstr "PT3H7M") = "3h 7min" :=
  (extractTime_compact_duration "PT3H7M" ['3'] ['7']).1 (by decide) (by decide) (by decide)
    (by decide) (by decide)

theorem dropWhile_isJsSpace_idem (l : List Char) :
    (l.dropWhile isJsSpace).dropWhile isJsSpace = l.dropWhile isJsSpace := by
  induction l with
  | nil => rfl
  | cons c cs ih =>
    by_cases h : isJsSpace c = true
    · simp [List.dropWhile, h, ih]
    · simp [List.dropWhile, h]

theorem jsTrim_mk_dropWhile (rest : List Char) :
    jsTrim (String.mk (rest.dropWhile isJsSpace)) = jsTrim (String.mk rest) := by
  simp only [jsTrim]
  rw [show (String.mk (rest.dropWhile isJsSpace)).toList = rest.dropWhile isJsSpace from rfl,
    show (String.mk rest).toList = rest from rfl, dropWhile_isJsSpace_idem]

theorem stripLeadingOrdinal_of_ordinal (s : String) (ds rest : List Char)
    (hs : s.toList = ds ++ '.' :: rest) (hne : ds ≠ [])
    (hdig : ∀ c ∈ ds, c.isDigit = true) :
    stripLeadingOrdinal s = String.mk (rest.dropWhile isJsSpace) := by
  match ds, hne with
  | d :: ds, _ =>
    have hsplit := splitDigits_of_digits (d :: ds) ('.' :: rest) hdig
      (by intro c hc; simp at hc; subst hc; decide)
    simp only [List.cons_append] at hsplit
    rw [stripLeadingOrdinal, hs]
    simp only [List.cons_append, hsplit]

/-- C7: Every instruction entry produced by the structured-data extractor is
the cleanup of a raw extracted entry; the cleanup removes a leading ordinal
pattern (digits, a period, optional whitespace) and trims surrounding
whitespace; concretely "1. Preheat the oven" yields "Preheat the oven" and
"  Mix well  " yields "Mix well". -/
theorem instructions_ordinal_stripped (v : JVal) (t s : String) (ds rest : List Char) :
    (t ∈ (parseJsonLdRecipe v).instructions.getD [] →
      ∃ raw ∈ extractArray (v.get "recipeInstructions"), t = cleanInstruction raw) ∧
    (s.toList = ds ++ '.' :: rest → ds ≠ [] → (∀ c ∈ ds, c.isDigit = true) →
      cleanInstruction s = jsTrim (String.mk rest)) ∧
    cleanInstruction "1. Preheat the oven" = "Preheat the oven" ∧
    cleanInstruction "  Mix well  " = "Mix well" := by
  refine ⟨?_, ?_, by decide, by decide⟩
  · intro ht
    simp only [parseJsonLdRecipe, Option.getD_some] at ht
    by_cases h : (v.get "recipeInstructions").truthy = true
    · simp only [h, if_true, List.mem_map] at ht
      obtain ⟨raw, hraw, hclean⟩ := ht
      exact ⟨raw, hraw, hclean.symm⟩
    · simp [h] at ht
  · intro hs hne hdig
    rw [cleanInstruction, stripLeadingOrdinal_of_ordinal s ds rest hs hne hdig,
      jsTrim_mk_dropWhile]

/-- Witness for C7 at the concrete instruction "12. Stir gently". -/
theorem instructions_ordinal_stripped_witness :
    cleanInstruction "12. Stir gently" = "Stir gently" := by
  have h := (instructions_ordinal_stripped .jundefined "" "12. Stir gently" ['1', '2']
    (' ' :: "Stir gently".toList)).2.1 (by decide) (by decide) (by decide)
  simpa using h

/-- The JSON-LD recipe object of the tag test vector: category
["dessert","dessert"] and cuisine ["italian"]. -/
def dupTagsRecipe : JVal :=
  .jobj [("@type", .jstr "Recipe"), ("name", .jstr "Tiramisu"),
    ("recipeCategory", .jarr [.jstr "dessert", .jstr "dessert"]),
    ("recipeCuisine", .jarr [.jstr "italian"])]

/-- C6 counterexample: the tags of the mapped recipe are NOT deduplicated:
category ["dessert","dessert"] plus cuisine ["italian"] yields
["dessert","dessert","italian"], not ["dessert","italian"]. -/
theorem tags_not_deduplicated :
    (parseJsonLdRecipe dupTagsRecipe).tags = some ["dessert", "dessert", "italian"] ∧
    (parseJsonLdRecipe dupTagsRecipe).tags ≠ some ["dessert", "italian"] := by decide

/-- C6 amended: the tags of a mapped recipe are the concatenation of the
normalized category and cuisine lists, duplicates preserved; concretely
category ["dessert","dessert"] plus cuisine ["italian"] yields tags
["dessert","dessert","italian"]. -/
theorem tags_concat_category_cuisine (v : JVal) :
    (parseJsonLdRecipe v).tags =
      some (extractArray (v.get "recipeCategory") ++ extractArray (v.get "recipeCuisine")) ∧
    (parseJsonLdRecipe dupTagsRecipe).tags = some ["dessert", "dessert", "italian"] :=
  ⟨rfl, by decide⟩

/-- A microdata recipe element whose first recipeYield value is the text "0". -/
def zeroYieldRecipe : MicroRecipe :=
  { imageSrc := none,
    props := fun p =>
      if p = "name" then [{ text := "Pie", content := none }]
      else if p = "recipeYield" then [{ text := "0", content := none }]
      else [] }

/-- A document whose only recipe markup is the zero-yield microdata element. -/
def zeroYieldDoc : Doc :=
  { jsonLdBlocks := [], micro := some zeroYieldRecipe, selText := fun _ => [] }

/-- C10: the microdata extractor reports servings as absent or a nonzero
integer, never 0: a missing, unparsable, or zero-parsing recipeYield gives
an absent servings (concretely, yield text "0" gives absent), while the
structured-data extractor's numeric coercion returns 0 for a native 0. -/
theorem microdata_servings_absent_or_nonzero (d : Doc) (p : PartialRecipe) :
    (extractFromMicrodata d = some p →
      p.servings = none ∨ ∃ n, p.servings = some n ∧ n ≠ 0) ∧
    (extractFromMicrodata zeroYieldDoc).map (fun q => q.servings) = some none ∧
    extractNumber (.jnum 0) = some 0 := by
  refine ⟨?_, by decide, rfl⟩
  intro h
  unfold extractFromMicrodata at h
  match hm : d.micro with
  | none => rw [hm] at h; exact absurd h (by simp)
  | some r =>
    rw [hm] at h
    dsimp only [] at h
    match hh : (extractProp r "name").head? with
    | none => rw [hh] at h; simp at h
    | some title =>
      rw [hh] at h
      dsimp only [] at h
      by_cases ht : title = ""
      · simp [ht] at h
      · simp only [ht, if_false] at h
        injection h with h2
        subst h2
        cases h3 : (extractProp r "recipeYield").head? with
        | none => left; simp [h3]
        | some s =>
          cases h4 : jsParseInt s with
          | none => left; simp [h3, h4]
          | some n =>
            by_cases h5 : n = 0
            · left; simp [h3, h4, h5]
            · right; exact ⟨n, by simp [h3, h4, h5], h5⟩

/-- The partial recipe extracted from the zero-yield microdata document. -/
def pieRecord : PartialRecipe :=
  { title := some "Pie", description := none, image := none, prepTime := none,
    cookTime := none, totalTime := none, servings := none, difficulty := none,
    ingredients := some [], instructions := some [], tags := none }

/-- Witness for C10 at the concrete zero-yield microdata document. -/
theorem microdata_servings_absent_or_nonzero_witness :
    pieRecord.servings = none ∨ ∃ n, pieRecord.servings = some n ∧ n ≠ 0 :=
  (microdata_servings_absent_or_nonzero zeroYieldDoc pieRecord).1 (by decide)

/-- The non-empty trimmed texts a selector yields on a document: the
candidate collection of the findMultipleTextBySelectors loop body. -/
def nonEmptyTexts (sel : String → List String) (s : String) : List String :=
  ((sel s).map jsTrim).filter (fun t => t != "")

/-- The trimmed text of the first element a selector yields ("" when the
selector matches nothing): the candidate of the findTextBySelectors loop. -/
def firstElemText (sel : String → List String) (s : String) : String :=
  match (sel s).head? with
  | none => ""
  | some t0 => jsTrim t0

theorem findMultiple_skip (sel : String → List String) (x : String) (rest : List String)
    (h : nonEmptyTexts sel x = []) :
    findMultipleTextBySelectors sel (x :: rest) = findMultipleTextBySelectors sel rest := by
  rw [findMultipleTextBySelectors]
  cases hsel : sel x with
  | nil => simp
  | cons a l =>
    simp only [nonEmptyTexts, hsel] at h
    simp only [List.isEmpty_cons, Bool.false_eq_true, if_false, h, List.isEmpty_nil, if_true]

theorem findMultiple_hit (sel : String → List String) (x : String) (rest : List String)
    (h : nonEmptyTexts sel x ≠ []) :
    findMultipleTextBySelectors sel (x :: rest) = nonEmptyTexts sel x := by
  rw [findMultipleTextBySelectors]
  cases hsel : sel x with
  | nil => exact absurd (by simp [nonEmptyTexts, hsel]) h
  | cons a l =>
    simp only [nonEmptyTexts, hsel] at h
    have hF : (List.filter (fun t => t != "") (List.map jsTrim (a :: l))).isEmpty = false := by
      cases hc : List.filter (fun t => t != "") (List.map jsTrim (a :: l)) with
      | nil => exact absurd hc h
      | cons b m => rfl
    simp only [nonEmptyTexts, hsel, List.isEmpty_cons, Bool.false_eq_true, if_false, hF]

theorem findMultiple_winning (sel : String → List String) (pre post : List String) (q : String)
    (hpre : ∀ x ∈ pre, nonEmptyTexts sel x = []) (hq : nonEmptyTexts sel q ≠ []) :
    findMultipleTextBySelectors sel (pre ++ q :: post) = nonEmptyTexts sel q := by
  induction pre with
  | nil => exact findMultiple_hit sel q post hq
  | cons x pre ih =>
    rw [List.cons_append, findMultiple_skip sel x _ (hpre x (by simp))]
    exact ih (fun y hy => hpre y (by simp [hy]))

theorem findText_all_empty (sel : String → List String) (sels : List String)
    (h : ∀ x ∈ sels, firstElemText sel x = "") :
    findTextBySelectors sel sels = "" := by
  induction sels with
  | nil => rfl
  | cons x rest ih =>
    rw [findTextBySelectors]
    have hx := h x (by simp)
    cases hsel : (sel x).head? with
    | none => exact ih (fun y hy => h y (by simp [hy]))
    | some t0 =>
      simp only [firstElemText, hsel] at hx
      simp only [hx, bne_self_eq_false, Bool.false_eq_true, if_false]
      exact ih (fun y hy => h y (by simp [hy]))

/-- A document with no title under the first title selector, a title under
the second, no elements under the first ingredient selector, and three
under the second. -/
def selDoc3 : Doc :=
  { jsonLdBlocks := [], micro := none,
    selText := fun s =>
      if s = ".entry-title" then ["Salad"]
      else if s = ".ingredient" then ["a", "b", "c"]
      else [] }

/-- C8: In the heuristic selector extractor, the ingredient and instruction
fields come exactly from findMultipleTextBySelectors over the fixed
candidate lists, where the first selector yielding at least one non-empty
trimmed text wins and contributes all of its non-empty matches; the
extractor returns null when no title selector yields non-empty text and
when both lists come out empty; concretely, with the first ingredient
selector matching nothing and the second matching three elements, exactly
those three are used. -/
theorem selectors_first_match (d : Doc) (pre post : List String) (q : String) :
    (extractFromCommonSelectors d = none ∨
      ∃ p, extractFromCommonSelectors d = some p ∧
        p.ingredients = some (findMultipleTextBySelectors d.selText ingredientSelectors) ∧
        p.instructions = some (findMultipleTextBySelectors d.selText instructionSelectors)) ∧
    ((∀ x ∈ pre, nonEmptyTexts d.selText x = []) → nonEmptyTexts d.selText q ≠ [] →
      findMultipleTextBySelectors d.selText (pre ++ q :: post) = nonEmptyTexts d.selText q) ∧
    ((∀ x ∈ titleSelectors, firstElemText d.selText x = "") →
      extractFromCommonSelectors d = none) ∧
    (findMultipleTextBySelectors d.selText ingredientSelectors = [] →
      findMultipleTextBySelectors d.selText instructionSelectors = [] →
      extractFromCommonSelectors d = none) ∧
    (extractFromCommonSelectors selDoc3).map (fun p => p.ingredients) =
      some (some ["a", "b", "c"]) := by
  refine ⟨?_, fun hpre hq => findMultiple_winning d.selText pre post q hpre hq, ?_, ?_, by decide⟩
  · by_cases ht : findTextBySelectors d.selText titleSelectors = ""
    · left; simp [extractFromCommonSelectors, ht]
    · by_cases hi : ((findMultipleTextBySelectors d.selText ingredientSelectors).isEmpty &&
        (findMultipleTextBySelectors d.selText instructionSelectors).isEmpty) = true
      · left; simp [extractFromCommonSelectors, ht, hi]
      · have hb : ((findMultipleTextBySelectors d.selText ingredientSelectors).isEmpty &&
          (findMultipleTextBySelectors d.selText instructionSelectors).isEmpty) = false := by
          revert hi
          cases ((findMultipleTextBySelectors d.selText ingredientSelectors).isEmpty &&
            (findMultipleTextBySelectors d.selText instructionSelectors).isEmpty) <;> simp
        right
        refine ⟨PartialRecipe.mk (some (jsTrim (findTextBySelectors d.selText titleSelectors)))
          none none none none none none none
          (some (findMultipleTextBySelectors d.selText ingredientSelectors))
          (some (findMultipleTextBySelectors d.selText instructionSelectors)) none,
          ?_, rfl, rfl⟩
        simp [extractFromCommonSelectors, ht, hb]
  · intro h
    simp [extractFromCommonSelectors, findText_all_empty d.selText titleSelectors h]
  · intro h1 h2
    simp [extractFromCommonSelectors, h1, h2]

/-- Witness for C8: on the concrete document, the winning second ingredient
selector contributes exactly its three matches. -/
theorem selectors_first_match_witness :
    findMultipleTextBySelectors selDoc3.selText ingredientSelectors = ["a", "b", "c"] :=
  (selectors_first_match selDoc3 [".recipe-ingredient"]
    [".recipe-ingredients li", "[class*=\"ingredient\"]", ".ingredients li"]
    ".ingredient").2.1 (by decide) (by decide)

/-- A JSON-LD recipe object carrying only a type and a name: no
ingredients, no instructions. -/
def cakeObj : JVal := .jobj [("@type", .jstr "Recipe"), ("name", .jstr "Cake")]

/-- A document whose only recipe markup is the title-only JSON-LD block. -/
def cakeDoc : Doc :=
  { jsonLdBlocks := [.parsed cakeObj], micro := none, selText := fun _ => [] }

theorem find_cakeObj :
    findRecipeInJsonLd cakeObj = .ok (some (parseJsonLdRecipe cakeObj)) := by
  rw [cakeObj]
  simp [findRecipeInJsonLd, JVal.get, lookupField, JVal.isStr]

theorem extractFromJsonLd_cake :
    extractFromJsonLd [.parsed cakeObj] = some (parseJsonLdRecipe cakeObj) := by
  rw [extractFromJsonLd, find_cakeObj]

theorem usable_title_ne (o : Option PartialRecipe) (p : PartialRecipe) (t : String)
    (h : usable o = some (p, t)) : t ≠ "" := by
  match o with
  | none => simp [usable] at h
  | some q =>
    rw [usable] at h
    match hq : q.title with
    | none => rw [hq] at h; exact absurd h (by simp)
    | some u =>
      rw [hq] at h
      dsimp only [] at h
      by_cases hu : u = ""
      · rw [if_pos hu] at h; exact absurd h (by simp)
      · rw [if_neg hu] at h
        injection h with h2
        injection h2 with h3 h4
        exact h4 ▸ hu

/-- C1 counterexample: on a document whose JSON-LD recipe has a title but
neither ingredients nor instructions, extractRecipeFromUrl returns that
recipe successfully (with both lists empty) instead of failing. -/
theorem titled_empty_recipe_returned :
    extractRecipeFromUrl cakeDoc "http://example.com" =
      .ok (buildResult (parseJsonLdRecipe cakeObj) "Cake" "http://example.com") ∧
    (buildResult (parseJsonLdRecipe cakeObj) "Cake" "http://example.com").title = "Cake" ∧
    (buildResult (parseJsonLdRecipe cakeObj) "Cake" "http://example.com").ingredients = [] ∧
    (buildResult (parseJsonLdRecipe cakeObj) "Cake" "http://example.com").instructions = [] := by
  refine ⟨?_, rfl, by decide, by decide⟩
  rw [extractRecipeFromUrl, show cakeDoc.jsonLdBlocks = [.parsed cakeObj] from rfl,
    extractFromJsonLd_cake]
  rfl

/-- C1 amended: extractRecipeFromUrl either returns a ScrapedRecipe with a
non-empty title or fails with the no-recipe-data error; a strategy result
without a truthy title is rejected and the orchestrator falls through; the
returned ingredients and instructions may however both be empty (only the
CSS strategy enforces non-empty ingredients-or-instructions). -/
theorem extract_title_or_error (d : Doc) (url : String) :
    (∃ r, extractRecipeFromUrl d url = .ok r ∧ r.title ≠ "") ∨
      extractRecipeFromUrl d url = .error "No recipe data found on this page" := by
  rw [extractRecipeFromUrl]
  match h1 : usable (extractFromJsonLd d.jsonLdBlocks) with
  | some (p, t) => exact Or.inl ⟨buildResult p t url, rfl, usable_title_ne _ _ _ h1⟩
  | none =>
    match h2 : usable (extractFromMicrodata d) with
    | some (p, t) => exact Or.inl ⟨buildResult p t url, rfl, usable_title_ne _ _ _ h2⟩
    | none =>
      match h3 : usable (extractFromCommonSelectors d) with
      | some (p, t) => exact Or.inl ⟨buildResult p t url, rfl, usable_title_ne _ _ _ h3⟩
      | none => exact Or.inr rfl

/-- A document matching both the structured-data pattern (title "Cake") and
the microdata pattern (title "Pie"). -/
def bothDoc : Doc :=
  { jsonLdBlocks := [.parsed cakeObj], micro := some zeroYieldRecipe,
    selText := fun _ => [] }

/-- C2: the orchestrator tries structured data, then microdata, then
heuristic selectors, and the first usable (non-null, titled) result
short-circuits the rest; in particular when both the structured-data and
the microdata strategies yield usable results, the returned title is the
structured-data one. -/
theorem strategy_priority_order (d : Doc) (url : String) :
    (∀ p t, usable (extractFromJsonLd d.jsonLdBlocks) = some (p, t) →
      extractRecipeFromUrl d url = .ok (buildResult p t url)) ∧
    (usable (extractFromJsonLd d.jsonLdBlocks) = none →
      ∀ p t, usable (extractFromMicrodata d) = some (p, t) →
        extractRecipeFromUrl d url = .ok (buildResult p t url)) ∧
    (usable (extractFromJsonLd d.jsonLdBlocks) = none →
      usable (extractFromMicrodata d) = none →
      ∀ p t, usable (extractFromCommonSelectors d) = some (p, t) →
        extractRecipeFromUrl d url = .ok (buildResult p t url)) ∧
    (usable (extractFromJsonLd d.jsonLdBlocks) = none →
      usable (extractFromMicrodata d) = none →
      usable (extractFromCommonSelectors d) = none →
      extractRecipeFromUrl d url = .error "No recipe data found on this page") ∧
    (∀ p t q u, usable (extractFromJsonLd d.jsonLdBlocks) = some (p, t) →
      usable (extractFromMicrodata d) = some (q, u) →
      extractRecipeFromUrl d url = .ok (buildResult p t url) ∧
        (buildResult p t url).title = t) := by
  refine ⟨fun p t h1 => ?_, fun h0 p t h1 => ?_, fun h0a h0b p t h1 => ?_,
    fun h0a h0b h0c => ?_, fun p t q u h1 h2 => ⟨?_, rfl⟩⟩
  · rw [extractRecipeFromUrl, h1]
  · rw [extractRecipeFromUrl, h0, h1]
  · rw [extractRecipeFromUrl, h0a, h0b, h1]
  · rw [extractRecipeFromUrl, h0a, h0b, h0c]
  · rw [extractRecipeFromUrl, h1]

/-- Witness for C2 on the concrete document matching both the
structured-data pattern (title "Cake") and the microdata pattern
(title "Pie"): the structured-data title wins. -/
theorem strategy_priority_order_witness :
    extractRecipeFromUrl bothDoc "http://e.com" =
      .ok (buildResult (parseJsonLdRecipe cakeObj) "Cake" "http://e.com") ∧
    (buildResult (parseJsonLdRecipe cakeObj) "Cake" "http://e.com").title = "Cake" :=
  (strategy_priority_order bothDoc "http://e.com").2.2.2.2
    (parseJsonLdRecipe cakeObj) "Cake" pieRecord "Pie"
    (by rw [show bothDoc.jsonLdBlocks = [.parsed cakeObj] from rfl, extractFromJsonLd_cake]; rfl)
    (by decide)

theorem extractFromJsonLd_none_iff (blocks : List Block) :
    extractFromJsonLd blocks = none ↔
      ∀ v r, Block.parsed v ∈ blocks → findRecipeInJsonLd v ≠ .ok (some r) := by
  induction blocks with
  | nil => simp [extractFromJsonLd]
  | cons b rest ih =>
    cases b with
    | noContent =>
      rw [show extractFromJsonLd (.noContent :: rest) = extractFromJsonLd rest from rfl, ih]
      constructor
      · intro h v r hv
        rcases List.mem_cons.mp hv with h1 | h2
        · exact absurd h1 (by simp)
        · exact h v r h2
      · intro h v r hv
        exact h v r (List.mem_cons_of_mem _ hv)
    | malformed =>
      rw [show extractFromJsonLd (.malformed :: rest) = extractFromJsonLd rest from rfl, ih]
      constructor
      · intro h v r hv
        rcases List.mem_cons.mp hv with h1 | h2
        · exact absurd h1 (by simp)
        · exact h v r h2
      · intro h v r hv
        exact h v r (List.mem_cons_of_mem _ hv)
    | parsed w =>
      rw [extractFromJsonLd]
      cases hf : findRecipeInJsonLd w with
      | error e =>
        rw [ih]
        constructor
        · intro h v r hv
          rcases List.mem_cons.mp hv with h1 | h2
          · cases h1; simp [hf]
          · exact h v r h2
        · intro h v r hv
          exact h v r (List.mem_cons_of_mem _ hv)
      | ok o =>
        cases o with
        | none =>
          rw [ih]
          constructor
          · intro h v r hv
            rcases List.mem_cons.mp hv with h1 | h2
            · cases h1; simp [hf]
            · exact h v r h2
          · intro h v r hv
            exact h v r (List.mem_cons_of_mem _ hv)
        | some r0 =>
          apply iff_of_false
          · simp
          · intro hall
            exact hall w r0 (by simp) hf

/-- C3: the structured-data extractor scans blocks in document order; an
empty or JSON-malformed block is skipped without aborting the scan, a block
whose parsed value yields no recipe (or a TypeError) is skipped, the first
block yielding a recipe-typed match is returned immediately, and the
extractor returns null exactly when no block's scan yields a match; hence a
first parseable non-Recipe block followed by a valid Recipe block succeeds
with the second block's data. -/
theorem jsonld_blocks_scanned_in_order (rest : List Block) (v w : JVal) (r : PartialRecipe) :
    (extractFromJsonLd (.noContent :: rest) = extractFromJsonLd rest) ∧
    (extractFromJsonLd (.malformed :: rest) = extractFromJsonLd rest) ∧
    (findRecipeInJsonLd v = .ok (some r) →
      extractFromJsonLd (.parsed v :: rest) = some r) ∧
    (findRecipeInJsonLd v = .ok none →
      extractFromJsonLd (.parsed v :: rest) = extractFromJsonLd rest) ∧
    (findRecipeInJsonLd v = .error () →
      extractFromJsonLd (.parsed v :: rest) = extractFromJsonLd rest) ∧
    (findRecipeInJsonLd v = .ok none → findRecipeInJsonLd w = .ok (some r) →
      extractFromJsonLd [.parsed v, .parsed w] = some r) ∧
    (extractFromJsonLd rest = none ↔
      ∀ x s, Block.parsed x ∈ rest → findRecipeInJsonLd x ≠ .ok (some s)) := by
  refine ⟨rfl, rfl, fun h => ?_, fun h => ?_, fun h => ?_, fun h1 h2 => ?_,
    extractFromJsonLd_none_iff rest⟩
  · rw [extractFromJsonLd, h]
  · rw [extractFromJsonLd, h]
  · rw [extractFromJsonLd, h]
  · rw [extractFromJsonLd, h1, extractFromJsonLd, h2]

/-- Witness for C3: a parseable non-Recipe first block followed by the
title-only Recipe block yields the second block's recipe. -/
theorem jsonld_blocks_scanned_in_order_witness :
    extractFromJsonLd [.parsed (.jobj [("@type", .jstr "Thing")]), .parsed cakeObj] =
      some (parseJsonLdRecipe cakeObj) :=
  (jsonld_blocks_scanned_in_order [] (.jobj [("@type", .jstr "Thing")]) cakeObj
    (parseJsonLdRecipe cakeObj)).2.2.2.2.2.1
    (by simp [findRecipeInJsonLd, JVal.get, lookupField, JVal.isStr]) find_cakeObj

theorem find_jnull : findRecipeInJsonLd .jnull = .error () := by
  simp [findRecipeInJsonLd]

/-- C4 counterexample: on the JSON value null the recursive search does not
return null: member access on null raises a TypeError (modelled as an
error), which the enclosing block scanner catches by skipping the block. -/
theorem null_value_raises :
    findRecipeInJsonLd .jnull = .error () ∧ findRecipeInJsonLd .jnull ≠ .ok none := by
  refine ⟨find_jnull, ?_⟩
  rw [find_jnull]
  intro h
  exact Except.noConfusion h

theorem findRecipeInList_first (xs : List JVal)
    (h : ∀ y ∈ xs, findRecipeInJsonLd y ≠ .error ()) :
    findRecipeInList xs =
      .ok (xs.findSome? fun y => ((findRecipeInJsonLd y).toOption).join) := by
  induction xs with
  | nil => simp [findRecipeInList]
  | cons x xs ih =>
    rw [findRecipeInList, List.findSome?_cons]
    cases hx : findRecipeInJsonLd x with
    | error e => exact absurd (by cases e; exact hx) (h x (by simp))
    | ok o =>
      cases o with
      | some r => simp [Except.toOption]
      | none =>
        simp only [Except.toOption, Option.join]
        exact ih (fun y hy => h y (by simp [hy]))

/-- C4 amended: for a deserialized JSON value, the search dispatches as
follows: null (or undefined) raises a TypeError caught by the block
scanner; a list is searched element by element in order, an element's
error propagating and the first match being returned (so for lists of
error-free elements the result is the first match in order); an object
whose @type is the string "Recipe" is itself the match (mapped by
parseJsonLdRecipe); an object with a truthy @graph is searched recursively
through the wrapper; any other value gives null. -/
theorem find_recipe_dispatch (s : String) (n : Int) (b : Bool) (x g : JVal)
    (xs : List JVal) (fields : List (String × JVal)) :
    (findRecipeInJsonLd .jnull = .error () ∧ findRecipeInJsonLd .jundefined = .error ()) ∧
    (findRecipeInJsonLd (.jarr xs) = findRecipeInList xs) ∧
    (findRecipeInList [] = .ok none) ∧
    (findRecipeInList (x :: xs) = match findRecipeInJsonLd x with
      | .error e => .error e
      | .ok (some r) => .ok (some r)
      | .ok none => findRecipeInList xs) ∧
    ((∀ y ∈ xs, findRecipeInJsonLd y ≠ .error ()) →
      findRecipeInJsonLd (.jarr xs) =
        .ok (xs.findSome? fun y => ((findRecipeInJsonLd y).toOption).join)) ∧
    ((JVal.get (.jobj fields) "@type").isStr "Recipe" = true →
      findRecipeInJsonLd (.jobj fields) = .ok (some (parseJsonLdRecipe (.jobj fields)))) ∧
    ((JVal.get (.jobj fields) "@type").isStr "Recipe" = false →
      lookupField fields "@graph" = some g → g.truthy = true →
      findRecipeInJsonLd (.jobj fields) = findRecipeInJsonLd g) ∧
    ((JVal.get (.jobj fields) "@type").isStr "Recipe" = false →
      lookupField fields "@graph" = none →
      findRecipeInJsonLd (.jobj fields) = .ok none) ∧
    (findRecipeInJsonLd (.jstr s) = .ok none ∧ findRecipeInJsonLd (.jnum n) = .ok none ∧
      findRecipeInJsonLd (.jbool b) = .ok none) := by
  refine ⟨⟨find_jnull, by simp [findRecipeInJsonLd]⟩, by simp [findRecipeInJsonLd],
    by simp [findRecipeInList], ?_, fun h => ?_, fun h => ?_, fun h1 h2 h3 => ?_,
    fun h1 h2 => ?_,
    by simp [findRecipeInJsonLd], by simp [findRecipeInJsonLd], by simp [findRecipeInJsonLd]⟩
  · rw [findRecipeInList]
  · rw [show findRecipeInJsonLd (.jarr xs) = findRecipeInList xs from by
      simp [findRecipeInJsonLd]]
    exact findRecipeInList_first xs h
  · simp [findRecipeInJsonLd, h]
  · simp only [findRecipeInJsonLd, h1, Bool.false_eq_true, if_false]
    split
    · rename_i g2 hg2
      rw [h2] at hg2
      injection hg2 with hgg
      subst hgg
      rw [if_pos h3]
    · rename_i hg2
      rw [h2] at hg2
      exact Option.noConfusion hg2
  · simp only [findRecipeInJsonLd, h1, Bool.false_eq_true, if_false]
    split
    · rename_i g2 hg2
      rw [h2] at hg2
      exact Option.noConfusion hg2
    · rfl

/-- Witness for C4 at concrete inputs: the Recipe-typed object is its own
match, and a graph wrapper is recursed into. -/
theorem find_recipe_dispatch_witness :
    findRecipeInJsonLd cakeObj = .ok (some (parseJsonLdRecipe cakeObj)) :=
  (find_recipe_dispatch "" 0 false .jnull .jnull []
    [("@type", .jstr "Recipe"), ("name", .jstr "Cake")]).2.2.2.2.2.1 (by decide)

theorem findJ_obj_recipe (fields : List (String × JVal))
    (h : ((JVal.jobj fields).get "@type").isStr "Recipe" = true) :
    findRecipeInJsonLd (.jobj fields) = .ok (some (parseJsonLdRecipe (.jobj fields))) := by
  simp [findRecipeInJsonLd, h]

theorem findJ_obj_graph (fields : List (String × JVal)) (g : JVal)
    (h1 : ((JVal.jobj fields).get "@type").isStr "Recipe" = false)
    (h2 : lookupField fields "@graph" = some g) (h3 : g.truthy = true) :
    findRecipeInJsonLd (.jobj fields) = findRecipeInJsonLd g := by
  simp only [findRecipeInJsonLd, h1, Bool.false_eq_true, if_false]
  split
  · rename_i g2 hg2
    rw [h2] at hg2
    injection hg2 with hgg
    subst hgg
    rw [if_pos h3]
  · rename_i hg2
    rw [h2] at hg2
    exact Option.noConfusion hg2

theorem findJ_obj_graph_falsy (fields : List (String × JVal)) (g : JVal)
    (h1 : ((JVal.jobj fields).get "@type").isStr "Recipe" = false)
    (h2 : lookupField fields "@graph" = some g) (h3 : g.truthy = false) :
    findRecipeInJsonLd (.jobj fields) = .ok none := by
  simp only [findRecipeInJsonLd, h1, Bool.false_eq_true, if_false]
  split
  · rename_i g2 hg2
    rw [h2] at hg2
    injection hg2 with hgg
    subst hgg
    rw [if_neg (by simp [h3])]
  · rfl

theorem findJ_obj_nograph (fields : List (String × JVal))
    (h1 : ((JVal.jobj fields).get "@type").isStr "Recipe" = false)
    (h2 : lookupField fields "@graph" = none) :
    findRecipeInJsonLd (.jobj fields) = .ok none := by
  simp only [findRecipeInJsonLd, h1, Bool.false_eq_true, if_false]
  split
  · rename_i g2 hg2
    rw [h2] at hg2
    exact Option.noConfusion hg2
  · rfl

theorem lib_findJ_obj_recipe (fields : List (String × JVal))
    (h : ((JVal.jobj fields).get "@type").isStr "Recipe" = true) :
    Lib.findRecipeInJsonLd (.jobj fields) = .ok (some (Lib.parseJsonLdRecipe (.jobj fields))) := by
  simp [Lib.findRecipeInJsonLd, h]

theorem lib_findJ_obj_graph (fields : List (String × JVal)) (g : JVal)
    (h1 : ((JVal.jobj fields).get "@type").isStr "Recipe" = false)
    (h2 : lookupField fields "@graph" = some g) (h3 : g.truthy = true) :
    Lib.findRecipeInJsonLd (.jobj fields) = Lib.findRecipeInJsonLd g := by
  simp only [Lib.findRecipeInJsonLd, h1, Bool.false_eq_true, if_false]
  split
  · rename_i g2 hg2
    rw [h2] at hg2
    injection hg2 with hgg
    subst hgg
    rw [if_pos h3]
  · rename_i hg2
    rw [h2] at hg2
    exact Option.noConfusion hg2

theorem lib_findJ_obj_graph_falsy (fields : List (String × JVal)) (g : JVal)
    (h1 : ((JVal.jobj fields).get "@type").isStr "Recipe" = false)
    (h2 : lookupField fields "@graph" = some g) (h3 : g.truthy = false) :
    Lib.findRecipeInJsonLd (.jobj fields) = .ok none := by
  simp only [Lib.findRecipeInJsonLd, h1, Bool.false_eq_true, if_false]
  split
  · rename_i g2 hg2
    rw [h2] at hg2
    injection hg2 with hgg
    subst hgg
    rw [if_neg (by simp [h3])]
  · rfl

theorem lib_findJ_obj_nograph (fields : List (String × JVal))
    (h1 : ((JVal.jobj fields).get "@type").isStr "Recipe" = false)
    (h2 : lookupField fields "@graph" = none) :
    Lib.findRecipeInJsonLd (.jobj fields) = .ok none := by
  simp only [Lib.findRecipeInJsonLd, h1, Bool.false_eq_true, if_false]
  split
  · rename_i g2 hg2
    rw [h2] at hg2
    exact Option.noConfusion hg2
  · rfl

theorem lib_parseJsonLdRecipe_eq (v : JVal) :
    Lib.parseJsonLdRecipe v = parseJsonLdRecipe v := by
  rw [Lib.parseJsonLdRecipe, parseJsonLdRecipe]
  cases hv : v.get "image" <;> rfl

theorem lib_findRecipe_eq_aux (n : Nat) :
    (∀ v : JVal, sizeOf v ≤ n → Lib.findRecipeInJsonLd v = findRecipeInJsonLd v) ∧
    (∀ xs : List JVal, sizeOf xs ≤ n →
      Lib.findRecipeInList xs = findRecipeInList xs) := by
  induction n using Nat.strong_induction_on with
  | _ n ih =>
    constructor
    · intro v hv
      match v with
      | .jundefined => simp [Lib.findRecipeInJsonLd, findRecipeInJsonLd]
      | .jnull => simp [Lib.findRecipeInJsonLd, findRecipeInJsonLd]
      | .jbool b => simp [Lib.findRecipeInJsonLd, findRecipeInJsonLd]
      | .jnum m => simp [Lib.findRecipeInJsonLd, findRecipeInJsonLd]
      | .jstr s => simp [Lib.findRecipeInJsonLd, findRecipeInJsonLd]
      | .jarr items =>
        have hlt : sizeOf items < n := by
          simp at hv
          omega
        rw [show Lib.findRecipeInJsonLd (.jarr items) = Lib.findRecipeInList items from by
            simp [Lib.findRecipeInJsonLd],
          show findRecipeInJsonLd (.jarr items) = findRecipeInList items from by
            simp [findRecipeInJsonLd]]
        exact (ih (sizeOf items) hlt).2 items le_rfl
      | .jobj fields =>
        by_cases ht : ((JVal.jobj fields).get "@type").isStr "Recipe" = true
        · rw [lib_findJ_obj_recipe fields ht, findJ_obj_recipe fields ht,
            lib_parseJsonLdRecipe_eq]
        · have ht2 : ((JVal.jobj fields).get "@type").isStr "Recipe" = false := by
            revert ht
            cases ((JVal.jobj fields).get "@type").isStr "Recipe" <;> simp
          match hg : lookupField fields "@graph" with
          | some g =>
            by_cases htr : g.truthy = true
            · have hlt : sizeOf g < n := by
                have hsz := lookupField_sizeOf fields "@graph" g hg
                simp at hv
                omega
              rw [lib_findJ_obj_graph fields g ht2 hg htr,
                findJ_obj_graph fields g ht2 hg htr]
              exact (ih (sizeOf g) hlt).1 g le_rfl
            · have htr2 : g.truthy = false := by
                revert htr
                cases g.truthy <;> simp
              rw [lib_findJ_obj_graph_falsy fields g ht2 hg htr2,
                findJ_obj_graph_falsy fields g ht2 hg htr2]
          | none =>
            rw [lib_findJ_obj_nograph fields ht2 hg, findJ_obj_nograph fields ht2 hg]
    · intro xs hxs
      match xs with
      | [] => simp [Lib.findRecipeInList, findRecipeInList]
      | x :: rest =>
        have hx : sizeOf x < n := by
          simp at hxs
          omega
        have hrest : sizeOf rest < n := by
          simp at hxs
          omega
        rw [Lib.findRecipeInList, findRecipeInList, (ih (sizeOf x) hx).1 x le_rfl]
        cases findRecipeInJsonLd x with
        | error e => rfl
        | ok o =>
          cases o with
          | some r => rfl
          | none =>
            exact (ih (sizeOf rest) hrest).2 rest le_rfl

theorem lib_find_eq (v : JVal) :
    Lib.findRecipeInJsonLd v = findRecipeInJsonLd v :=
  (lib_findRecipe_eq_aux (sizeOf v)).1 v le_rfl

theorem lib_extractFromJsonLd_eq (blocks : List Block) :
    Lib.extractFromJsonLd blocks = extractFromJsonLd blocks := by
  induction blocks with
  | nil => rfl
  | cons b rest ih =>
    cases b with
    | noContent => exact ih
    | malformed => exact ih
    | parsed v =>
      rw [Lib.extractFromJsonLd, extractFromJsonLd, lib_find_eq v]
      cases findRecipeInJsonLd v with
      | error e => exact ih
      | ok o =>
        cases o with
        | some r => rfl
        | none => exact ih

theorem lib_findText_eq (sel : String → List String) (sels : List String) :
    Lib.findTextBySelectors sel sels = findTextBySelectors sel sels := by
  induction sels with
  | nil => rfl
  | cons s rest ih =>
    rw [Lib.findTextBySelectors, findTextBySelectors]
    cases (sel s).head? with
    | none => exact ih
    | some t0 =>
      by_cases h : (jsTrim t0 != "") = true
      · simp only [h, if_true]
      · have h2 : (jsTrim t0 != "") = false := by
          revert h
          cases (jsTrim t0 != "") <;> simp
        simp only [h2, Bool.false_eq_true, if_false, ih]

theorem lib_findMultiple_eq (sel : String → List String) (sels : List String) :
    Lib.findMultipleTextBySelectors sel sels = findMultipleTextBySelectors sel sels := by
  induction sels with
  | nil => rfl
  | cons s rest ih =>
    rw [Lib.findMultipleTextBySelectors, findMultipleTextBySelectors]
    cases hsel : sel s with
    | nil => exact ih
    | cons a l =>
      by_cases h : (List.filter (fun t => t != "") (List.map jsTrim (a :: l))).isEmpty = true
      · simp only [List.isEmpty_cons, Bool.false_eq_true, if_false, h, if_true, ih]
      · have h2 : (List.filter (fun t => t != "") (List.map jsTrim (a :: l))).isEmpty = false := by
          revert h
          cases (List.filter (fun t => t != "") (List.map jsTrim (a :: l))).isEmpty <;> simp
        simp only [List.isEmpty_cons, Bool.false_eq_true, if_false, h2]

theorem lib_extractRecipeFromUrl_eq (d : Doc) (url : String) :
    Lib.extractRecipeFromUrl d url = extractRecipeFromUrl d url := by
  rw [Lib.extractRecipeFromUrl, extractRecipeFromUrl, lib_extractFromJsonLd_eq]
  rfl

/-- C9: the TypeScript pipeline (src/functions/src/index.ts) and its
compiled twin (src/functions/lib/index.js) are behaviorally equivalent: on
every input, each helper and the orchestrator compute the same result. -/
theorem ts_lib_equivalent (v : JVal) (s : String) (blocks : List Block) (d : Doc)
    (url : String) (sel : String → List String) (sels : List String)
    (r : MicroRecipe) (prop : String) :
    Lib.extractText v = extractText v ∧
    Lib.extractArray v = extractArray v ∧
    Lib.extractTime v = extractTime v ∧
    Lib.extractNumber v = extractNumber v ∧
    Lib.cleanInstruction s = cleanInstruction s ∧
    Lib.parseJsonLdRecipe v = parseJsonLdRecipe v ∧
    Lib.findRecipeInJsonLd v = findRecipeInJsonLd v ∧
    Lib.extractFromJsonLd blocks = extractFromJsonLd blocks ∧
    Lib.extractProp r prop = extractProp r prop ∧
    Lib.extractFromMicrodata d = extractFromMicrodata d ∧
    Lib.findTextBySelectors sel sels = findTextBySelectors sel sels ∧
    Lib.findMultipleTextBySelectors sel sels = findMultipleTextBySelectors sel sels ∧
    Lib.extractFromCommonSelectors d = extractFromCommonSelectors d ∧
    Lib.extractRecipeFromUrl d url = extractRecipeFromUrl d url :=
  ⟨rfl, rfl, rfl, rfl, rfl, lib_parseJsonLdRecipe_eq v, lib_find_eq v,
    lib_extractFromJsonLd_eq blocks, rfl, rfl, lib_findText_eq sel sels,
    lib_findMultiple_eq sel sels, rfl, lib_extractRecipeFromUrl_eq d url⟩
